import Mathlib

/-!
Shallow embedding of the scraping-orchestration and content-extraction
pipeline of the landingenie repository (FirecrawlService in
src/utils/ContentAnalyzer.ts, IntelligentScraper.ts, ApifyService.ts),
together with proofs settling the frozen claims about it.

JavaScript numbers that can become NaN (via adding an undefined object
property) are modelled as Option Rat, with none standing for NaN and all
NaN comparisons false, as in JS. JS strings are modelled as Lean strings
with ASCII case folding for toLowerCase.
-/

namespace LGenie

/-- Decidable equality for Except, needed to evaluate polling outcomes. -/
def exceptDecEq {ε α : Type} [DecidableEq ε] [DecidableEq α] :
    (a b : Except ε α) → Decidable (a = b)
  | .error e, .error f =>
    if h : e = f then .isTrue (congrArg Except.error h)
    else .isFalse (fun hc => h (Except.error.inj hc))
  | .error _, .ok _ => .isFalse (fun hc => Except.noConfusion hc)
  | .ok _, .error _ => .isFalse (fun hc => Except.noConfusion hc)
  | .ok x, .ok y =>
    if h : x = y then .isTrue (congrArg Except.ok h)
    else .isFalse (fun hc => h (Except.ok.inj hc))

instance {ε α : Type} [DecidableEq ε] [DecidableEq α] : DecidableEq (Except ε α) :=
  exceptDecEq

/-- ASCII lowercasing of one character, the effect of the JS toLowerCase
on the ASCII range (every string in this development is ASCII). -/
def lowerChar (c : Char) : Char :=
  if 65 ≤ c.toNat ∧ c.toNat ≤ 90 then Char.ofNat (c.toNat + 32) else c

/-- String lowercasing, JS toLowerCase restricted to ASCII. -/
def jsToLower (s : String) : String := String.mk (s.toList.map lowerChar)

/-- Whitespace trimming at both ends, JS trim. -/
def jsTrim (s : String) : String :=
  String.mk (((s.toList.dropWhile Char.isWhitespace).reverse.dropWhile Char.isWhitespace).reverse)

/-- Dynamic value for the any-typed JSON fields the LLM strategy receives:
a JS value that is a string, an array, or anything else (undefined, null,
number, object), which the cleaning code treats uniformly as non-string. -/
inductive JVal where
  | str (s : String)
  | arr (xs : List JVal)
  | undef
deriving Repr

/-- Whitespace-run collapsing, the JS replace of every maximal whitespace
run by a single space; the flag records whether the previous kept character
position ended inside a whitespace run. -/
def collapseWsAux : List Char → Bool → List Char
  | [], _ => []
  | c :: rest, prevWs =>
    if c.isWhitespace then
      if prevWs then collapseWsAux rest true
      else ' ' :: collapseWsAux rest true
    else c :: collapseWsAux rest false

/-- FirecrawlService.cleanString on an actual string: trim, collapse
whitespace runs to single spaces, truncate to 500 characters. -/
def cleanStringStr (s : String) : String :=
  String.mk ((collapseWsAux (jsTrim s).toList false).take 500)

/-- FirecrawlService.cleanString: non-strings become the empty string. -/
def cleanString : JVal → String
  | .str s => cleanStringStr s
  | _ => ""

/-- Decision of whether a dynamic value is a string with nonempty trim,
the filter predicate of FirecrawlService.cleanStringArray. -/
def isNonBlankStr : JVal → Bool
  | .str s => (jsTrim s).length > 0
  | _ => false

/-- FirecrawlService.cleanStringArray: keep string items with nonempty
trim, clean each, drop items cleaned to empty, cap at 20. -/
def cleanStringArray (v : JVal) : List String :=
  match v with
  | .arr xs =>
    ((((xs.filter isNonBlankStr).map cleanString).filter (fun s => s.length > 0)).take 20)
  | _ => []

/-- JS string or-else: the left operand unless it is empty (falsy). -/
def jsOrStr (s d : String) : String := if s = "" then d else s

/-- Dynamic record carrying the twelve fields validateAndCleanLLMData
reads off the any-typed LLM payload. -/
structure JsonData where
  productName : JVal
  headlines : JVal
  testimonials : JVal
  pricing : JVal
  benefits : JVal
  ctas : JVal
  guarantees : JVal
  timeframes : JVal
  socialProof : JVal
  category : JVal
  targetAudience : JVal
  mainBenefit : JVal
deriving Repr

/-- Payload with every field undefined, the base for building inputs. -/
def JsonData.allUndef : JsonData :=
  ⟨.undef, .undef, .undef, .undef, .undef, .undef, .undef, .undef, .undef, .undef, .undef, .undef⟩

/-- Canonical extraction schema ExtractedMarketingData of
FirecrawlService; the three optional TS string fields are strings with
the empty string standing for undefined. -/
structure ExtractedMarketingData where
  productName : String
  headlines : List String
  testimonials : List String
  pricing : List String
  benefits : List String
  ctas : List String
  guarantees : List String
  timeframes : List String
  socialProof : List String
  category : String
  targetAudience : String
  mainBenefit : String
deriving Repr, DecidableEq

/-- FirecrawlService.getEmptyExtractedData. -/
def getEmptyExtractedData : ExtractedMarketingData :=
  { productName := "Unknown Product"
  , headlines := []
  , testimonials := []
  , pricing := []
  , benefits := []
  , ctas := []
  , guarantees := []
  , timeframes := []
  , socialProof := []
  , category := ""
  , targetAudience := ""
  , mainBenefit := "" }

/-- FirecrawlService.validateAndCleanLLMData. -/
def validateAndCleanLLMData (j : JsonData) : ExtractedMarketingData :=
  { productName := jsOrStr (cleanString j.productName) "Unknown Product"
  , headlines := cleanStringArray j.headlines
  , testimonials := cleanStringArray j.testimonials
  , pricing := cleanStringArray j.pricing
  , benefits := cleanStringArray j.benefits
  , ctas := cleanStringArray j.ctas
  , guarantees := cleanStringArray j.guarantees
  , timeframes := cleanStringArray j.timeframes
  , socialProof := cleanStringArray j.socialProof
  , category := cleanString j.category
  , targetAudience := cleanString j.targetAudience
  , mainBenefit := cleanString j.mainBenefit }

/-- Substring containment test, the JS String.includes. -/
def strIncludes (hay needle : String) : Bool :=
  (List.range (hay.toList.length + 1)).any (fun i => needle.toList.isPrefixOf (hay.toList.drop i))

/-- Category keyword table of FirecrawlService.inferCategory, in object
insertion order. -/
def categoriesTable : List (String × List String) :=
  [ ("health", ["health", "fitness", "weight", "diet", "nutrition", "supplement", "wellness"])
  , ("business", ["business", "marketing", "sales", "revenue", "profit", "entrepreneur"])
  , ("education", ["course", "training", "learn", "education", "skill", "knowledge"])
  , ("technology", ["software", "app", "digital", "automation", "tech", "online"])
  , ("finance", ["money", "investment", "trading", "forex", "crypto", "wealth"]) ]

/-- FirecrawlService.inferCategory: first table row with a keyword hit in
the lowercased text, default general. -/
def inferCategory (text : String) : String :=
  let textLower := jsToLower text
  match categoriesTable.find? (fun ck => ck.2.any (fun kw => strIncludes textLower kw)) with
  | some ck => ck.1
  | none => "general"

/-- JS number that may be NaN; none is NaN, arithmetic propagates it. -/
abbrev JNum := Option ℚ

/-- Addition on JS numbers; adding an undefined weight yields NaN. -/
def jadd (a b : JNum) : JNum :=
  match a, b with
  | some x, some y => some (x + y)
  | _, _ => none

/-- Multiplication on JS numbers with NaN propagation. -/
def jmul (a b : JNum) : JNum :=
  match a, b with
  | some x, some y => some (x * y)
  | _, _ => none

/-- Math.min against a constant; Math.min with NaN is NaN. -/
def jminC (a : JNum) (c : ℚ) : JNum := a.map (fun x => min x c)

/-- Strict greater-than against a constant; every NaN comparison is
false, as in JS. -/
def jgtC (a : JNum) (c : ℚ) : Bool :=
  match a with
  | some x => decide (c < x)
  | none => false

/-- Weight table of FirecrawlService.calculateQualityScore; a missing key
of the non-affiliate object literal is none (JS undefined). -/
structure QWeights where
  productName : JNum
  headlines : JNum
  testimonials : JNum
  pricing : JNum
  benefits : JNum
  ctas : JNum
  guarantees : JNum
  socialProof : JNum

/-- FirecrawlService.calculateQualityScore (the private method on
ExtractedMarketingData, lines 1985-2018): weighted presence sum, with the
count-scaled weights, the missing guarantees and socialProof keys of the
non-affiliate weight object, and the final Math.min against 1. -/
def calculateQualityScore (data : ExtractedMarketingData) (isAffiliatePage : Bool) : JNum :=
  let weights : QWeights :=
    if isAffiliatePage then
      { productName := some 0.15, headlines := some 0.15, testimonials := some 0.15
      , pricing := some 0.15, benefits := some 0.15, ctas := some 0.10
      , guarantees := some 0.10, socialProof := some 0.05 }
    else
      { productName := some 0.20, headlines := some 0.25, benefits := some 0.20
      , ctas := some 0.15, testimonials := some 0.10, pricing := some 0.10
      , guarantees := none, socialProof := none }
  let score : JNum := some 0
  let score := if data.productName ≠ "" ∧ data.productName ≠ "Unknown Product" ∧ data.productName.length > 3
    then jadd score weights.productName else score
  let score := if data.headlines.length > 0
    then jadd score (jmul weights.headlines (some (min ((data.headlines.length : ℚ) / 3) 1))) else score
  let score := if data.testimonials.length > 0
    then jadd score (jmul weights.testimonials (some (min ((data.testimonials.length : ℚ) / 2) 1))) else score
  let score := if data.pricing.length > 0 then jadd score weights.pricing else score
  let score := if data.benefits.length > 0
    then jadd score (jmul weights.benefits (some (min ((data.benefits.length : ℚ) / 5) 1))) else score
  let score := if data.ctas.length > 0
    then jadd score (jmul weights.ctas (some (min ((data.ctas.length : ℚ) / 2) 1))) else score
  let score := if data.guarantees.length > 0 then jadd score weights.guarantees else score
  let score := if data.socialProof.length > 0 then jadd score weights.socialProof else score
  jminC score 1

/-- FirecrawlService.calculateCompletenessScore: required fields count
double, normalized by 13 and clamped by Math.min against 1. -/
def calculateCompletenessScore (data : ExtractedMarketingData) : ℚ :=
  let requiredScore : ℚ :=
    (if data.productName ≠ "" ∧ data.productName ≠ "Unknown Product" then 2 else 0)
    + (if data.headlines.length > 0 then 2 else 0)
    + (if data.benefits.length > 0 then 2 else 0)
    + (if data.ctas.length > 0 then 2 else 0)
  let optionalScore : ℚ :=
    (if data.testimonials.length > 0 then 1 else 0)
    + (if data.pricing.length > 0 then 1 else 0)
    + (if data.guarantees.length > 0 then 1 else 0)
    + (if data.socialProof.length > 0 then 1 else 0)
    + (if data.timeframes.length > 0 then 1 else 0)
  min ((requiredScore + optionalScore) / 13) 1

/-- FirecrawlService.identifyMissingFields. -/
def identifyMissingFields (data : ExtractedMarketingData) (isAffiliatePage : Bool) : List String :=
  (if data.productName = "" ∨ data.productName = "Unknown Product" then ["Product Name"] else [])
  ++ (if data.headlines.length = 0 then ["Headlines"] else [])
  ++ (if data.benefits.length = 0 then ["Benefits"] else [])
  ++ (if data.ctas.length = 0 then ["Call-to-Actions"] else [])
  ++ (if isAffiliatePage then
        (if data.testimonials.length = 0 then ["Testimonials"] else [])
        ++ (if data.pricing.length = 0 then ["Pricing Information"] else [])
        ++ (if data.guarantees.length = 0 then ["Guarantees"] else [])
      else [])

/-- FirecrawlService.determineConfidence. -/
def determineConfidence (qualityScore : JNum) (extractionMethod : String) : String :=
  if extractionMethod = "llm" ∧ jgtC qualityScore 0.8 then "high"
  else if jgtC qualityScore 0.7 then "high"
  else if jgtC qualityScore 0.5 then "medium"
  else "low"

/-- Partial extraction record, the Partial ExtractedMarketingData the DOM
parser parseHtmlContent returns; absent fields are none. -/
structure PartialEMD where
  productName : Option String
  headlines : Option (List String)
  testimonials : Option (List String)
  pricing : Option (List String)
  benefits : Option (List String)
  ctas : Option (List String)
  guarantees : Option (List String)
  timeframes : Option (List String)
  socialProof : Option (List String)
  category : Option String
  targetAudience : Option String
  mainBenefit : Option String
deriving Repr, DecidableEq

/-- Record with every field absent. -/
def PartialEMD.allNone : PartialEMD :=
  ⟨none, none, none, none, none, none, none, none, none, none, none, none⟩

/-- Order-preserving de-duplication keeping first occurrences, the JS
spread of a Set built from the concatenated arrays. -/
def dedupAux : List String → List String → List String
  | [], _ => []
  | x :: rest, seen =>
    if seen.contains x then dedupAux rest seen else x :: dedupAux rest (x :: seen)

/-- Spread-of-Set de-duplication from the left. -/
def dedupKeepFirst (xs : List String) : List String := dedupAux xs []

/-- FirecrawlService.mergeExtractedData. -/
def mergeExtractedData (primary : ExtractedMarketingData) (secondary : PartialEMD) :
    ExtractedMarketingData :=
  { productName :=
      if primary.productName ≠ "Unknown Product" then primary.productName
      else jsOrStr (secondary.productName.getD "") primary.productName
  , headlines := (dedupKeepFirst (primary.headlines ++ secondary.headlines.getD [])).take 10
  , testimonials := (dedupKeepFirst (primary.testimonials ++ secondary.testimonials.getD [])).take 10
  , pricing := (dedupKeepFirst (primary.pricing ++ secondary.pricing.getD [])).take 5
  , benefits := (dedupKeepFirst (primary.benefits ++ secondary.benefits.getD [])).take 15
  , ctas := (dedupKeepFirst (primary.ctas ++ secondary.ctas.getD [])).take 8
  , guarantees := (dedupKeepFirst (primary.guarantees ++ secondary.guarantees.getD [])).take 5
  , timeframes := (dedupKeepFirst (primary.timeframes ++ secondary.timeframes.getD [])).take 5
  , socialProof := (dedupKeepFirst (primary.socialProof ++ secondary.socialProof.getD [])).take 5
  , category := jsOrStr primary.category (secondary.category.getD "")
  , targetAudience := jsOrStr primary.targetAudience (secondary.targetAudience.getD "")
  , mainBenefit := jsOrStr primary.mainBenefit (secondary.mainBenefit.getD "") }

/-- FirecrawlService.isDataIncomplete. -/
def isDataIncomplete (data : ExtractedMarketingData) : Bool :=
  data.headlines.length = 0 || data.benefits.length = 0 || data.ctas.length = 0
    || data.productName = "Unknown Product"

/-- FirecrawlService.parseMarkdownContent: empty markdown yields the empty
record; the non-empty case runs the regex extraction battery, kept as the
parameter mdBody so theorems can quantify over it; its faithful model is
mdExtractBody below, built from the per-extractor definitions that mirror
the source loops, guards, length bands, trims, de-duplications, caps and
defaults, over a regex oracle. -/
def parseMarkdownContent (mdBody : String → ExtractedMarketingData) (markdown : String) :
    ExtractedMarketingData :=
  if markdown = "" then getEmptyExtractedData else mdBody markdown

/-- Regex oracle for the markdown extraction battery: one field per regex
family of the source, giving the test or group-1-capture behaviour of the
corresponding JS regular expression on one input string (indexed by the
position of the pattern in its array where there are several). The regex
engine is the only part not reimplemented; every surrounding loop, guard,
length band, trim, de-duplication, cap and default is modelled from the
source, and the theorems below hold for every oracle, in particular for
the actual JS regex semantics. -/
structure MdMatchers where
  titleCapture : ℕ → String → Option String
  productCapture : ℕ → String → Option String
  headlineCapture : ℕ → String → Option String
  testimonialTest : String → Bool
  priceTest : ℕ → String → Bool
  listItemClean : String → Option String
  benefitTest : String → Bool
  ctaCapture : ℕ → String → Option String
  guaranteeTest : String → Bool
  timeTest : ℕ → String → Bool
  proofTest : ℕ → String → Bool
  mainBenefitTest : String → Bool

/-- Oracle on which every regex reports no match. -/
def noMatchers : MdMatchers :=
  ⟨fun _ _ => none, fun _ _ => none, fun _ _ => none, fun _ => false, fun _ _ => false,
   fun _ => none, fun _ => false, fun _ _ => none, fun _ => false, fun _ _ => false,
   fun _ _ => false, fun _ => false⟩

/-- FirecrawlService.extractProductName: first title-pattern capture (of
the three patterns, in line-major order) of truthy length above 3 and
below 100 wins, trimmed; else the first product-pattern capture (of two)
on the full text, trimmed; else the Unknown Product default. -/
def extractProductName (M : MdMatchers) (lines : List String) (fullText : String) : String :=
  match lines.findSome? (fun line =>
      [0, 1, 2].findSome? (fun i =>
        match M.titleCapture i line with
        | some c => if c ≠ "" ∧ 3 < c.length ∧ c.length < 100 then some (jsTrim c) else none
        | none => none)) with
  | some name => name
  | none =>
    match [0, 1].findSome? (fun i =>
        match M.productCapture i fullText with
        | some c => if c ≠ "" then some (jsTrim c) else none
        | none => none) with
    | some name => name
    | none => "Unknown Product"

/-- FirecrawlService.extractHeadlines: both headline patterns collect over
the first 50 lines with the 10-200 length band, trimmed, de-duplicated,
capped at 10. -/
def extractHeadlines (M : MdMatchers) (lines : List String) : List String :=
  let headlines := (lines.take 50).flatMap (fun line =>
    [0, 1].filterMap (fun i =>
      match M.headlineCapture i line with
      | some c => if c ≠ "" ∧ 10 < c.length ∧ c.length < 200 then some (jsTrim c) else none
      | none => none))
  (dedupKeepFirst headlines).take 10

/-- FirecrawlService.extractTestimonials: a quoted line in the 20-500 band
(the source tests the same straight-quote character three times) and a
keyword-matching line above 15 characters are both collected; then
de-duplicate and cap at 10. -/
def extractTestimonials (M : MdMatchers) (lines : List String) : List String :=
  let testimonials := lines.flatMap (fun line =>
    (if (strIncludes line "\"" || strIncludes line "\"" || strIncludes line "\"")
        ∧ 20 < line.length ∧ line.length < 500 then [line] else [])
    ++ (if M.testimonialTest line ∧ 15 < line.length then [line] else []))
  (dedupKeepFirst testimonials).take 10

/-- FirecrawlService.extractPricing: a line matching any of the eight
price patterns and shorter than 200 characters is collected once (the
source breaks after the first matching pattern); de-duplicate, cap 5. -/
def extractPricing (M : MdMatchers) (lines : List String) : List String :=
  let pricing := lines.filter (fun line =>
    (List.range 8).any (fun i => M.priceTest i line ∧ line.length < 200))
  (dedupKeepFirst pricing).take 5

/-- FirecrawlService.extractBenefits: a list-item line contributes its
prefix-stripped trimmed remainder in the 5-200 band (listItemClean models
the two list-item patterns plus the replace and trim), and a line with a
benefit keyword in the 10-200 band contributes itself; de-duplicate,
cap 15. -/
def extractBenefits (M : MdMatchers) (lines : List String) : List String :=
  let benefits := lines.flatMap (fun line =>
    (match M.listItemClean line with
      | some cleanLine =>
        if 5 < cleanLine.length ∧ cleanLine.length < 200 then [cleanLine] else []
      | none => [])
    ++ (if M.benefitTest line ∧ 10 < line.length ∧ line.length < 200 then [line] else []))
  (dedupKeepFirst benefits).take 15

/-- FirecrawlService.extractCTAs: each of the three patterns contributes
its group-1-or-whole-match capture when truthy, trimmed, under the 3-100
band on the trimmed text; de-duplicate, cap 8. -/
def extractCTAs (M : MdMatchers) (lines : List String) : List String :=
  let ctas := lines.flatMap (fun line =>
    [0, 1, 2].filterMap (fun i =>
      match M.ctaCapture i line with
      | some c =>
        let cta := jsTrim c
        if 3 < cta.length ∧ cta.length < 100 then some cta else none
      | none => none))
  (dedupKeepFirst ctas).take 8

/-- FirecrawlService.extractGuarantees: guarantee-keyword lines in the
10-300 band; de-duplicate, cap 5. -/
def extractGuarantees (M : MdMatchers) (lines : List String) : List String :=
  let guarantees := lines.filter (fun line =>
    M.guaranteeTest line ∧ 10 < line.length ∧ line.length < 300)
  (dedupKeepFirst guarantees).take 5

/-- FirecrawlService.extractTimeframes: lines matching either time pattern
in the 5-200 band, collected once per line; de-duplicate, cap 5. -/
def extractTimeframes (M : MdMatchers) (lines : List String) : List String :=
  let timeframes := lines.filter (fun line =>
    (List.range 2).any (fun i => M.timeTest i line ∧ 5 < line.length ∧ line.length < 200))
  (dedupKeepFirst timeframes).take 5

/-- FirecrawlService.extractSocialProof: lines matching any of the four
proof patterns in the 5-200 band, collected once per line; de-duplicate,
cap 5. -/
def extractSocialProof (M : MdMatchers) (lines : List String) : List String :=
  let socialProof := lines.filter (fun line =>
    (List.range 4).any (fun i => M.proofTest i line ∧ 5 < line.length ∧ line.length < 200))
  (dedupKeepFirst socialProof).take 5

/-- FirecrawlService.extractMainBenefit: first of the first ten lines in
the 20-200 band matching the benefit-verb pattern, else empty. -/
def extractMainBenefit (M : MdMatchers) (lines : List String) : String :=
  match (lines.take 10).find? (fun line =>
      20 < line.length ∧ line.length < 200 ∧ M.mainBenefitTest line) with
  | some line => line
  | none => ""

/-- Audience keyword table of FirecrawlService.inferTargetAudience, in
object insertion order. -/
def audiencesTable : List (String × List String) :=
  [ ("entrepreneurs", ["entrepreneur", "business owner", "startup", "ceo"])
  , ("fitness enthusiasts", ["fitness", "gym", "workout", "athlete", "bodybuilder"])
  , ("investors", ["investor", "trading", "portfolio", "stocks", "forex"])
  , ("students", ["student", "college", "university", "learn", "education"])
  , ("professionals", ["professional", "career", "workplace", "corporate"]) ]

/-- FirecrawlService.inferTargetAudience: first table row with a keyword
hit in the lowercased text, default general audience. -/
def inferTargetAudience (text : String) : String :=
  let textLower := jsToLower text
  match audiencesTable.find? (fun ak => ak.2.any (fun kw => strIncludes textLower kw)) with
  | some ak => ak.1
  | none => "general audience"

/-- Newline split of a character list, the JS String split on newline. -/
def splitNl : List Char → List Char → List (List Char)
  | [], acc => [acc.reverse]
  | c :: rest, acc =>
    if c = '\n' then acc.reverse :: splitNl rest [] else splitNl rest (c :: acc)

/-- Line preparation of parseMarkdownContent: split on newline, trim each
line, drop falsy (empty) lines. -/
def jsLines (markdown : String) : List String :=
  ((splitNl markdown.toList []).map (fun cs => jsTrim (String.mk cs))).filter
    (fun l => l ≠ "")

/-- Body of FirecrawlService.parseMarkdownContent for non-empty markdown:
the record built from the extractor battery over the prepared lines and
the full text, with category and audience inferred by keyword tables. -/
def mdExtractBody (M : MdMatchers) (markdown : String) : ExtractedMarketingData :=
  let lines := jsLines markdown
  { productName := extractProductName M lines markdown
  , headlines := extractHeadlines M lines
  , testimonials := extractTestimonials M lines
  , pricing := extractPricing M lines
  , benefits := extractBenefits M lines
  , ctas := extractCTAs M lines
  , guarantees := extractGuarantees M lines
  , timeframes := extractTimeframes M lines
  , socialProof := extractSocialProof M lines
  , category := inferCategory markdown
  , targetAudience := inferTargetAudience markdown
  , mainBenefit := extractMainBenefit M lines }

/-- Page metadata record of the normalized Firecrawl payload. -/
structure MetaData where
  title : String
  description : String
  sourceURL : Option String
deriving Repr, DecidableEq

/-- RawPage handed to analyzeScrapedContent: markdown, html and the
optional pre-structured LLM json, plus metadata. -/
structure ScrapeData where
  markdown : Option String
  html : Option String
  json : Option JsonData
  metadata : MetaData
deriving Repr

/-- Scored extraction record ContentAnalysisResult. -/
structure ContentAnalysisResult where
  extractedData : ExtractedMarketingData
  qualityScore : JNum
  completenessScore : ℚ
  missingFields : List String
  confidence : String
  extractionMethod : String
deriving Repr, DecidableEq

/-- FirecrawlService.analyzeScrapedContent: LLM json strategy first, else
markdown parsing; DOM enhancement merge when html is present and the data
is incomplete; then the quality metrics. The DOM extractor
parseHtmlContent (a DOMParser battery) is abstracted as parameter ph. -/
def analyzeScrapedContent (mdBody : String → ExtractedMarketingData)
    (ph : String → PartialEMD) (scrapedData : ScrapeData) (isAffiliatePage : Bool) :
    ContentAnalysisResult :=
  let p1 : ExtractedMarketingData × String :=
    match scrapedData.json with
    | some j => (validateAndCleanLLMData j, "llm")
    | none => (parseMarkdownContent mdBody (scrapedData.markdown.getD ""), "parsing")
  let p2 : ExtractedMarketingData × String :=
    if scrapedData.html.getD "" ≠ "" ∧ isDataIncomplete p1.1 then
      (mergeExtractedData p1.1 (ph (scrapedData.html.getD "")),
        if p1.2 = "llm" then "hybrid" else "parsing")
    else p1
  let qualityScore := calculateQualityScore p2.1 isAffiliatePage
  { extractedData := p2.1
  , qualityScore := qualityScore
  , completenessScore := calculateCompletenessScore p2.1
  , missingFields := identifyMissingFields p2.1 isAffiliatePage
  , confidence := determineConfidence qualityScore p2.2
  , extractionMethod := p2.2 }

/-- Provenance metadata of a successful ScrapingResult. -/
structure ResultMeta where
  processingTime : ℕ
  finalURL : String
  isAffiliatePage : Bool
  extractionMethod : String
deriving Repr

/-- Data payload of a successful FirecrawlService.ScrapingResult. -/
structure ScrapingData where
  raw : ScrapeData
  analyzed : ContentAnalysisResult
  metadata : ResultMeta
deriving Repr

/-- FirecrawlService.ScrapingResult. -/
structure ScrapingResult where
  success : Bool
  error : Option String
  data : Option ScrapingData
deriving Repr

/-- Scraping configuration object of FirecrawlService. -/
structure ScrapingConfig where
  timeout : ℕ
  waitFor : ℕ
  maxRetries : ℕ
  enableCache : Bool
  affiliateTimeout : ℕ
  affiliateWaitFor : ℕ
deriving Repr

/-- Default configuration of FirecrawlService (lines 1077-1084). -/
def defaultConfig : ScrapingConfig :=
  { timeout := 15000, waitFor := 3000, maxRetries := 3, enableCache := true
  , affiliateTimeout := 30000, affiliateWaitFor := 10000 }

/-- Insertion-ordered string-keyed map, the JS Map: a list of key-value
pairs in insertion order, keys unique in every state reachable from the
empty map. -/
abbrev SMap (α : Type) := List (String × α)

/-- Map.set: replace in place when the key exists, else append. -/
def mapSet (m : SMap α) (k : String) (v : α) : SMap α :=
  if m.any (fun p => p.1 == k) then
    m.map (fun p => cond (p.1 == k) (k, v) p)
  else m ++ [(k, v)]

/-- Map.get as an Option. -/
def mapGet (m : SMap α) (k : String) : Option α :=
  (m.find? (fun p => p.1 == k)).map Prod.snd

/-- Map.delete of one key. -/
def mapDeleteKey (m : SMap α) (k : String) : SMap α :=
  m.filter (fun p => !(p.1 == k))

/-- Shared mutable cache state of FirecrawlService: the result cache and
the parallel timestamp map. -/
structure CacheState where
  cache : SMap ScrapingResult
  cacheTimestamps : SMap ℕ
deriving Repr

/-- Cache time-to-live, 30 minutes in milliseconds. -/
def CACHE_TTL : ℕ := 1000 * 60 * 30

/-- FirecrawlService.getCacheKey: lowercase then trim. -/
def getCacheKey (url : String) : String := jsTrim (jsToLower url)

/-- FirecrawlService.isCacheValid at clock reading now (milliseconds); a
stored timestamp of 0 is falsy in JS and treated as missing. -/
def isCacheValid (cfg : ScrapingConfig) (st : CacheState) (now : ℕ) (key : String) : Bool :=
  if cfg.enableCache = false then false
  else
    match mapGet st.cacheTimestamps key with
    | none => false
    | some ts => if ts = 0 then false else decide (now - ts < CACHE_TTL)

/-- FirecrawlService.getCachedResult. -/
def getCachedResult (cfg : ScrapingConfig) (st : CacheState) (now : ℕ) (url : String) :
    Option ScrapingResult :=
  let key := getCacheKey url
  if isCacheValid cfg st now key then mapGet st.cache key else none

/-- FirecrawlService.setCachedResult: store only successful results with
caching enabled, then evict the single oldest-inserted key when the cache
holds more than 100 entries. -/
def setCachedResult (cfg : ScrapingConfig) (st : CacheState) (now : ℕ) (url : String)
    (result : ScrapingResult) : CacheState :=
  if cfg.enableCache = false ∨ result.success = false then st
  else
    let key := getCacheKey url
    let c := mapSet st.cache key result
    let t := mapSet st.cacheTimestamps key now
    if c.length > 100 then
      match c.head? with
      | some p => ⟨mapDeleteKey c p.1, mapDeleteKey t p.1⟩
      | none => ⟨c, t⟩
    else ⟨c, t⟩

/-- Sequence of cache insertions at a fixed clock reading, folding
setCachedResult from the left. -/
def insertAll (cfg : ScrapingConfig) (now : ℕ) (xs : List (String × ScrapingResult))
    (st : CacheState) : CacheState :=
  xs.foldl (fun s ur => setCachedResult cfg s now ur.1 ur.2) st

/-- Raw response of one Firecrawl back-end call (FirecrawlResponse):
either scrapeRegularPage / scrapeAffiliatePage returns this record, or the
call throws, modelled by the Except error of the behaviour function. -/
structure FirecrawlResponse where
  success : Bool
  error : Option String
  markdown : Option String
  html : Option String
  metadata : Option MetaData
deriving Repr

/-- State left by the retry loop of FirecrawlService.scrapeWebsite: the
response captured by the break on success (none when every attempt threw),
the lastError variable, the backoff delays awaited in milliseconds, and
the number of attempts made. -/
structure RetryOutcome where
  response : Option FirecrawlResponse
  lastError : Option String
  delaysMs : List ℕ
  attemptsMade : ℕ
deriving Repr

/-- Retry loop body, structurally recursive on the remaining attempt
budget; attempt numbers run from 1 to maxRetries, a thrown attempt stores
lastError and, before any non-final attempt, awaits 2 ^ (attempt - 1)
seconds; a returned response breaks out of the loop. -/
def retryAux (behaviour : ℕ → Except String FirecrawlResponse) (maxRetries : ℕ) :
    ℕ → Option String → List ℕ → ℕ → RetryOutcome
  | 0, le, ds, n => ⟨none, le, ds, n⟩
  | remaining + 1, le, ds, n =>
    let attempt := maxRetries - remaining
    match behaviour attempt with
    | .ok resp => ⟨some resp, le, ds, n + 1⟩
    | .error e =>
      let ds2 := if attempt < maxRetries then ds ++ [2 ^ (attempt - 1) * 1000] else ds
      retryAux behaviour maxRetries remaining (some e) ds2 (n + 1)

/-- Retry loop of FirecrawlService.scrapeWebsite, lines 1332-1352. -/
def retryLoop (behaviour : ℕ → Except String FirecrawlResponse) (maxRetries : ℕ) :
    RetryOutcome :=
  retryAux behaviour maxRetries maxRetries none [] 0

/-- Affiliate indicator substrings of FirecrawlService.analyzeURL. -/
def affiliateIndicators : List String :=
  [ "clickbank", "hop.clickbank", "cbpage", "affiliate", "ref=", "aff="
  , "partner=", "campaign=", "leadpages", "clickfunnels", "shopify" ]

/-- URL analysis record of FirecrawlService.analyzeURL. -/
structure UrlAnalysis where
  isAffiliatePage : Bool
  platform : String
  confidence : ℚ
  reasoning : String
deriving Repr

/-- FirecrawlService.analyzeURL (the private method, lines 1255-1291). -/
def fcAnalyzeURL (url : String) : UrlAnalysis :=
  let urlLower := jsToLower url
  let isAffiliate := affiliateIndicators.any (fun ind => strIncludes urlLower ind)
  let platform :=
    if strIncludes urlLower "clickbank" || strIncludes urlLower "hop.clickbank" then "clickbank"
    else if strIncludes urlLower "leadpages" then "leadpages"
    else if strIncludes urlLower "clickfunnels" then "clickfunnels"
    else if strIncludes urlLower "shopify" then "shopify"
    else "unknown"
  { isAffiliatePage := isAffiliate
  , platform := platform
  , confidence := if isAffiliate then 0.9 else 0.3
  , reasoning := if isAffiliate then "Detected affiliate/sales page" else "Standard webpage detected" }

/-- Environment of one FirecrawlService.scrapeWebsite call: the outcome of
the URL connectivity validation, the stored API key, the behaviour of the
chosen primary back-end per attempt number, the clock reading at cache
access, and the elapsed milliseconds observed at result construction. -/
structure ScrapeEnv where
  validateIsValid : Bool
  apiKey : Option String
  behaviour : ℕ → Except String FirecrawlResponse
  now : ℕ
  elapsedMs : ℕ

/-- Placeholder RawPage substituted when Firecrawl succeeds with no
extractable content. -/
def fallbackPage (url : String) : ScrapeData :=
  { markdown := some "No content extracted"
  , html := some ""
  , json := none
  , metadata := { title := "Unknown Page", description := "No description available"
                , sourceURL := some url } }

/-- Body of FirecrawlService.scrapeWebsite after the cache lookup:
validation, key check, the retry loop with the lastError rethrow, the
unsuccessful-response branch, and the empty-content versus normal
branches, with successful normal results written to the cache. -/
def scrapeWebsiteBody (mdBody : String → ExtractedMarketingData) (ph : String → PartialEMD)
    (cfg : ScrapingConfig) (st : CacheState) (env : ScrapeEnv) (url : String)
    (useCache : Bool) : ScrapingResult × CacheState :=
  if env.validateIsValid = false then
    ({ success := false, error := some "Invalid URL", data := none }, st)
  else
    match env.apiKey with
    | none =>
      ({ success := false
       , error := some "Firecrawl API key not found. Please add your API key in settings."
       , data := none }, st)
    | some _ =>
      let ua := fcAnalyzeURL url
      let out := retryLoop env.behaviour cfg.maxRetries
      match out.lastError with
      | some e => ({ success := false, error := some e, data := none }, st)
      | none =>
        match out.response with
        | none => ({ success := false, error := some "Failed to connect to Firecrawl API", data := none }, st)
        | some resp =>
          if resp.success = false then
            ({ success := false, error := some (resp.error.getD "Failed to scrape website"), data := none }, st)
          else
            let hasContent := resp.markdown.getD "" ≠ "" ∨ resp.html.getD "" ≠ ""
            if hasContent then
              let normalizedData : ScrapeData :=
                { markdown := resp.markdown, html := resp.html, json := none
                , metadata := resp.metadata.getD
                    { title := "", description := "", sourceURL := some url } }
              let analyzed := analyzeScrapedContent mdBody ph normalizedData ua.isAffiliatePage
              let result : ScrapingResult :=
                { success := true, error := none
                , data := some
                    { raw := normalizedData, analyzed := analyzed
                    , metadata :=
                        { processingTime := env.elapsedMs
                        , finalURL := jsOrStr (normalizedData.metadata.sourceURL.getD "") url
                        , isAffiliatePage := ua.isAffiliatePage
                        , extractionMethod := analyzed.extractionMethod } } }
              let st2 := if useCache then setCachedResult cfg st env.now url result else st
              (result, st2)
            else
              let fallbackData := fallbackPage url
              let analyzed := analyzeScrapedContent mdBody ph fallbackData false
              ({ success := true, error := none
               , data := some
                   { raw := fallbackData, analyzed := analyzed
                   , metadata :=
                       { processingTime := env.elapsedMs
                       , finalURL := url
                       , isAffiliatePage := false
                       , extractionMethod := analyzed.extractionMethod } } }, st)

/-- FirecrawlService.scrapeWebsite: cache lookup first, then the body. -/
def scrapeWebsite (mdBody : String → ExtractedMarketingData) (ph : String → PartialEMD)
    (cfg : ScrapingConfig) (st : CacheState) (env : ScrapeEnv) (url : String)
    (useCache : Bool) : ScrapingResult × CacheState :=
  if useCache then
    match getCachedResult cfg st env.now url with
    | some cached => (cached, st)
    | none => scrapeWebsiteBody mdBody ph cfg st env url useCache
  else scrapeWebsiteBody mdBody ph cfg st env url useCache

/-- Back-end choice resolved by IntelligentScraper.scrapeURL. -/
inductive Service where
  | firecrawl
  | apify
deriving Repr, DecidableEq

/-- Uniform back-end response shape consumed by IntelligentScraper: both
FirecrawlService.scrapeWebsite and ApifyService.scrapeWebsite return a
record with success, optional data and optional error. The data payload is
opaque here (type parameter). -/
structure BackendResp (α : Type) where
  success : Bool
  data : Option α
  error : Option String
deriving Repr

/-- ScrapingResult of IntelligentScraper. -/
structure IResult (α : Type) where
  success : Bool
  data : Option α
  error : Option String
  method : String
  qualityScore : Option ℚ
  processingTime : Option ℕ
  cost : Option ℚ
deriving Repr

/-- Core of IntelligentScraper.scrapeURL after back-end resolution
(lines 78-140): one primary call, one fallback call against the other
back-end when the primary fails, then the quality enrichment of a
successful result. The payload normalization of the Firecrawl result
(data.raw or data) is abstracted as rawOf, and the quality scoring of the
any-typed payload as calcQ. Besides the result, the pair of call counts
(firecrawl calls, apify calls) made against the two back-ends is
returned. -/
def intelligentScrapeURL {α : Type} (service : Service)
    (fcResult apResult : BackendResp α) (rawOf : Option α → Option α)
    (calcQ : α → ℚ) (elapsed : ℕ) : IResult α × ℕ × ℕ :=
  let primary : IResult α :=
    match service with
    | .firecrawl =>
      { success := fcResult.success, data := rawOf fcResult.data, error := fcResult.error
      , method := "firecrawl", qualityScore := none, processingTime := none, cost := some 0.01 }
    | .apify =>
      { success := apResult.success, data := apResult.data, error := apResult.error
      , method := "apify", qualityScore := none, processingTime := none, cost := some 0.05 }
  let withFallback : IResult α × ℕ × ℕ :=
    if primary.success = false then
      match service with
      | .firecrawl =>
        if apResult.success then
          ({ success := true, data := apResult.data, error := none
           , method := "apify-fallback", qualityScore := none, processingTime := none
           , cost := some 0.05 }, 1, 1)
        else (primary, 1, 1)
      | .apify =>
        if fcResult.success then
          ({ success := true, data := rawOf fcResult.data, error := none
           , method := "firecrawl-fallback", qualityScore := none, processingTime := none
           , cost := some 0.01 }, 1, 1)
        else (primary, 1, 1)
    else
      match service with
      | .firecrawl => (primary, 1, 0)
      | .apify => (primary, 0, 1)
  let result := withFallback.1
  let result :=
    if result.success ∧ result.data.isSome then
      { result with qualityScore := result.data.map calcQ, processingTime := some elapsed }
    else result
  (result, withFallback.2)

/-- Result record fetched on Apify job success: the first dataset record,
or the empty-object substitute when the dataset is empty. -/
inductive ApData (α : Type) where
  | record (a : α)
  | emptyObj
deriving Repr, DecidableEq

/-- Polling loop body of ApifyService.pollForCompletion, structurally
recursive on the remaining attempt budget: poll the status at index i;
SUCCEEDED fetches the dataset and returns its first record (or the empty
object), FAILED throws, anything else sleeps 3000 milliseconds and
continues; an exhausted budget throws the timeout error. Besides the
outcome, the number of status polls made and the list of sleeps awaited
are returned. -/
def pollAux {α : Type} (status : ℕ → String) (dataset : List α) :
    ℕ → ℕ → ℕ → List ℕ → Except String (ApData α) × ℕ × List ℕ
  | 0, _, polls, sleeps => (Except.error "Apify scraping timeout", polls, sleeps)
  | fuel + 1, i, polls, sleeps =>
    let s := status i
    if s = "SUCCEEDED" then
      (Except.ok (match dataset.head? with
        | some a => ApData.record a
        | none => ApData.emptyObj), polls + 1, sleeps)
    else if s = "FAILED" then
      (Except.error "Apify scraping failed", polls + 1, sleeps)
    else pollAux status dataset fuel (i + 1) (polls + 1) (sleeps ++ [3000])

/-- ApifyService.pollForCompletion with its attempt bound. -/
def pollForCompletion {α : Type} (status : ℕ → String) (dataset : List α)
    (maxAttempts : ℕ) : Except String (ApData α) × ℕ × List ℕ :=
  pollAux status dataset maxAttempts 0 0 []

/-- ApifyService.scrapeWebsite: missing token fails fast, a failed actor
start throws into the catch, otherwise the polling outcome is wrapped;
a thrown polling error is caught and surfaced as a failure record. -/
def apifyScrapeWebsite {α : Type} (token : Option String) (runOk : Bool)
    (status : ℕ → String) (dataset : List α) : BackendResp (ApData α) :=
  match token with
  | none => { success := false, data := none, error := some "Apify token not found" }
  | some _ =>
    if runOk = false then
      { success := false, data := none, error := some "Failed to start Apify scraper" }
    else
      match (pollForCompletion status dataset 20).1 with
      | Except.ok result => { success := true, data := some result, error := none }
      | Except.error e => { success := false, data := none, error := some e }

/-! ## Helper lemmas -/

theorem jsOrStr_ne_empty {s d : String} (hd : d ≠ "") : jsOrStr s d ≠ "" := by
  unfold jsOrStr
  split_ifs with h
  · exact hd
  · exact h

theorem validateAndCleanLLMData_productName_ne (j : JsonData) :
    (validateAndCleanLLMData j).productName ≠ "" :=
  jsOrStr_ne_empty (by decide)

theorem cleanStringArray_length_le (v : JVal) : (cleanStringArray v).length ≤ 20 := by
  unfold cleanStringArray
  match v with
  | .str _ => simp
  | .undef => simp
  | .arr xs => exact List.length_take_le _ _

theorem mergeExtractedData_productName_ne {p : ExtractedMarketingData} {s : PartialEMD}
    (hp : p.productName ≠ "") : (mergeExtractedData p s).productName ≠ "" := by
  unfold mergeExtractedData
  dsimp only
  split_ifs with h
  · exact hp
  · exact jsOrStr_ne_empty hp

theorem inferCategory_mem (t : String) :
    inferCategory t ∈ ["health", "business", "education", "technology", "finance", "general"] := by
  unfold inferCategory
  dsimp only
  rcases hf : categoriesTable.find?
      (fun ck => ck.2.any (fun kw => strIncludes (jsToLower t) kw)) with _ | ck
  · simp [hf]
  · have hmem := List.mem_of_find?_eq_some hf
    simp only [categoriesTable, List.mem_cons, List.not_mem_nil, or_false] at hmem
    rw [hf]
    rcases hmem with h | h | h | h | h <;> subst h <;> simp

/-- Field-level caps of an extraction record, all within 20. -/
def withinCaps (d : ExtractedMarketingData) : Prop :=
  d.headlines.length ≤ 20 ∧ d.testimonials.length ≤ 20 ∧ d.pricing.length ≤ 20
    ∧ d.benefits.length ≤ 20 ∧ d.ctas.length ≤ 20 ∧ d.guarantees.length ≤ 20
    ∧ d.timeframes.length ≤ 20 ∧ d.socialProof.length ≤ 20

theorem validateAndCleanLLMData_withinCaps (j : JsonData) :
    withinCaps (validateAndCleanLLMData j) := by
  unfold withinCaps validateAndCleanLLMData
  refine ⟨?_, ?_, ?_, ?_, ?_, ?_, ?_, ?_⟩ <;> exact cleanStringArray_length_le _

theorem getEmptyExtractedData_withinCaps : withinCaps getEmptyExtractedData := by
  unfold withinCaps getEmptyExtractedData
  simp

theorem mergeExtractedData_withinCaps (p : ExtractedMarketingData) (s : PartialEMD) :
    withinCaps (mergeExtractedData p s) := by
  unfold withinCaps mergeExtractedData
  dsimp only
  refine ⟨?_, ?_, ?_, ?_, ?_, ?_, ?_, ?_⟩ <;>
    exact le_trans (List.length_take_le _ _) (by omega)

/-! ## Claim C2 -/

theorem mdExtractBody_withinCaps (M : MdMatchers) (md : String) :
    withinCaps (mdExtractBody M md) := by
  unfold withinCaps mdExtractBody extractHeadlines extractTestimonials extractPricing
    extractBenefits extractCTAs extractGuarantees extractTimeframes extractSocialProof
  refine ⟨?_, ?_, ?_, ?_, ?_, ?_, ?_, ?_⟩ <;>
    exact le_trans (List.length_take_le _ _) (by omega)

theorem parseMarkdownContent_withinCaps (M : MdMatchers) (md : String) :
    withinCaps (parseMarkdownContent (mdExtractBody M) md) := by
  unfold parseMarkdownContent
  split_ifs
  · exact getEmptyExtractedData_withinCaps
  · exact mdExtractBody_withinCaps M md

theorem extractProductName_noMatchers (lines : List String) (fullText : String) :
    extractProductName noMatchers lines fullText = "Unknown Product" := by
  have h1 : lines.findSome? (fun line =>
      [0, 1, 2].findSome? (fun i =>
        match noMatchers.titleCapture i line with
        | some c => if c ≠ "" ∧ 3 < c.length ∧ c.length < 100 then some (jsTrim c) else none
        | none => none)) = none := by
    rw [List.findSome?_eq_none_iff]
    intro line _
    rfl
  have h2 : ([0, 1].findSome? (fun i =>
      match noMatchers.productCapture i fullText with
      | some c => if c ≠ "" then some (jsTrim c) else none
      | none => none) : Option String) = none := rfl
  unfold extractProductName
  simp only [h1, h2]

/-- LLM payload whose category field is the out-of-enum string gadget. -/
def gadgetJson : JsonData := { JsonData.allUndef with category := JVal.str "gadget" }

/-- RawPage carrying only the gadget LLM payload. -/
def gadgetPage : ScrapeData :=
  { markdown := none, html := none, json := some gadgetJson
  , metadata := { title := "", description := "", sourceURL := none } }

/-- C2 (counterexample): the extraction does not constrain the category
field to any fixed value set: an LLM payload with category gadget passes
through analyzeScrapedContent unchanged, and gadget is in neither fixed
enumeration the spec names. -/
theorem C2_category_enum_violated :
    (analyzeScrapedContent (mdExtractBody noMatchers) (fun _ => PartialEMD.allNone)
        gadgetPage false).extractedData.category = "gadget"
    ∧ "gadget" ∉ (["software", "physical", "service", "info", "health"] : List String)
    ∧ "gadget" ∉ (["health", "business", "education", "technology", "finance", "general"] : List String) := by
  decide

/-- C2 (amended): for every input RawPage (null and empty included),
every regex-oracle instantiation of the markdown extraction battery and
every DOM extractor, analyzeScrapedContent returns a record with every
field of the canonical schema defined and every sequence field within its
cap: no hypothesis restricts the input. The fully empty input yields
exactly the schema-default record; an all-absent LLM payload cleans to
exactly the schema-default record; the structured-JSON path always has a
nonempty productName (defaulting to Unknown Product), and the no-match
markdown battery likewise defaults the product name. The category field
is not validated against a fixed set: the LLM path passes any cleaned
string through, while the markdown path always carries inferCategory of
the markdown, which is one of the six fixed heuristic values. -/
theorem C2_schema_totality (M : MdMatchers) (ph : String → PartialEMD)
    (sd : ScrapeData) (aff : Bool) :
    withinCaps (analyzeScrapedContent (mdExtractBody M) ph sd aff).extractedData
    ∧ (sd.json = none → sd.markdown.getD "" = "" → sd.html.getD "" = "" →
        (analyzeScrapedContent (mdExtractBody M) ph sd aff).extractedData
          = getEmptyExtractedData)
    ∧ validateAndCleanLLMData JsonData.allUndef = getEmptyExtractedData
    ∧ (∀ j, sd.json = some j →
        (analyzeScrapedContent (mdExtractBody M) ph sd aff).extractedData.productName ≠ "")
    ∧ (∀ lines fullText, extractProductName noMatchers lines fullText = "Unknown Product")
    ∧ (∀ j, sd.json = some j → sd.html.getD "" = "" →
        (analyzeScrapedContent (mdExtractBody M) ph sd aff).extractedData.category
          = cleanString j.category)
    ∧ (sd.json = none → sd.html.getD "" = "" → sd.markdown.getD "" ≠ "" →
        (analyzeScrapedContent (mdExtractBody M) ph sd aff).extractedData.category
          = inferCategory (sd.markdown.getD ""))
    ∧ (∀ t, inferCategory t ∈ ["health", "business", "education", "technology", "finance", "general"]) := by
  refine ⟨?_, ?_, by decide, ?_, fun lines fullText => extractProductName_noMatchers lines fullText,
    ?_, ?_, fun t => inferCategory_mem t⟩
  · unfold analyzeScrapedContent
    rcases hj : sd.json with _ | j <;> dsimp only <;> split_ifs <;> dsimp only <;>
      first
      | exact mergeExtractedData_withinCaps _ _
      | exact parseMarkdownContent_withinCaps M _
      | exact validateAndCleanLLMData_withinCaps j
  · intro hj hmd hh
    simp [analyzeScrapedContent, parseMarkdownContent, hj, hmd, hh]
  · intro j hj
    unfold analyzeScrapedContent
    simp only [hj]
    split_ifs <;> dsimp only <;>
      first
      | exact mergeExtractedData_productName_ne (validateAndCleanLLMData_productName_ne j)
      | exact validateAndCleanLLMData_productName_ne j
  · intro j hj hh
    simp [analyzeScrapedContent, hj, hh, validateAndCleanLLMData]
  · intro hj hh hmd
    simp [analyzeScrapedContent, parseMarkdownContent, hj, hh, hmd, mdExtractBody]

/-- C2 (witness): the amended theorem applied to the no-match oracle, the
empty DOM extractor and the gadget page. -/
theorem C2_schema_totality_witness :
    withinCaps (analyzeScrapedContent (mdExtractBody noMatchers) (fun _ => PartialEMD.allNone)
        gadgetPage false).extractedData
    ∧ (gadgetPage.json = none → gadgetPage.markdown.getD "" = "" → gadgetPage.html.getD "" = "" →
        (analyzeScrapedContent (mdExtractBody noMatchers) (fun _ => PartialEMD.allNone)
          gadgetPage false).extractedData = getEmptyExtractedData)
    ∧ validateAndCleanLLMData JsonData.allUndef = getEmptyExtractedData
    ∧ (∀ j, gadgetPage.json = some j →
        (analyzeScrapedContent (mdExtractBody noMatchers) (fun _ => PartialEMD.allNone)
          gadgetPage false).extractedData.productName ≠ "")
    ∧ (∀ lines fullText, extractProductName noMatchers lines fullText = "Unknown Product")
    ∧ (∀ j, gadgetPage.json = some j → gadgetPage.html.getD "" = "" →
        (analyzeScrapedContent (mdExtractBody noMatchers) (fun _ => PartialEMD.allNone)
          gadgetPage false).extractedData.category = cleanString j.category)
    ∧ (gadgetPage.json = none → gadgetPage.html.getD "" = "" → gadgetPage.markdown.getD "" ≠ "" →
        (analyzeScrapedContent (mdExtractBody noMatchers) (fun _ => PartialEMD.allNone)
          gadgetPage false).extractedData.category = inferCategory (gadgetPage.markdown.getD ""))
    ∧ (∀ t, inferCategory t ∈ ["health", "business", "education", "technology", "finance", "general"]) :=
  C2_schema_totality noMatchers (fun _ => PartialEMD.allNone) gadgetPage false

/-! ## Claim C7 -/

/-- Non-affiliate extraction record with one guarantee present, the
failing input of the quality scorer. -/
def guaranteeOnlyData : ExtractedMarketingData :=
  { getEmptyExtractedData with guarantees := ["30-day money-back guarantee"] }

/-- Variant of the failing input with one more non-empty testimonial. -/
def guaranteeTestimonialData : ExtractedMarketingData :=
  { guaranteeOnlyData with testimonials := guaranteeOnlyData.testimonials ++ ["Great product!"] }

/-- C7: evaluation at the failing input. On a non-affiliate page with a
nonempty guarantees field, the weight object of calculateQualityScore has
no guarantees key, so the JS code adds undefined and the score becomes
NaN (modelled as none): it is not a rational in the unit interval at all,
and it stays NaN after appending a testimonial, so neither the range claim
nor the monotonicity claim holds of the code. -/
theorem C7_quality_score_NaN :
    calculateQualityScore guaranteeOnlyData false = none
    ∧ calculateQualityScore guaranteeTestimonialData false = none
    ∧ (calculateQualityScore guaranteeOnlyData false).isSome = false := by
  refine ⟨by decide, by decide, by decide⟩

/-! ## Claim C8 -/

/-- C8: the confidence level is determined exactly as claimed: high when
(method llm and score above 0.8) or score above 0.7, else medium when
score above 0.5, else low. -/
theorem C8_confidence_characterization (q : ℚ) (hq0 : 0 ≤ q) (hq1 : q ≤ 1) (m : String) :
    (determineConfidence (some q) m = "high" ↔ ((m = "llm" ∧ (0.8 : ℚ) < q) ∨ (0.7 : ℚ) < q))
    ∧ (determineConfidence (some q) m = "medium" ↔
        (¬((m = "llm" ∧ (0.8 : ℚ) < q) ∨ (0.7 : ℚ) < q) ∧ (0.5 : ℚ) < q))
    ∧ (determineConfidence (some q) m = "low" ↔
        (¬((m = "llm" ∧ (0.8 : ℚ) < q) ∨ (0.7 : ℚ) < q) ∧ ¬((0.5 : ℚ) < q))) := by
  unfold determineConfidence jgtC
  dsimp only
  simp only [decide_eq_true_eq]
  by_cases hA : m = "llm" ∧ (0.8 : ℚ) < q
  · have h7 : (0.7 : ℚ) < q := by linarith [hA.2]
    have h5 : (0.5 : ℚ) < q := by linarith
    rw [if_pos hA]
    refine ⟨?_, ?_, ?_⟩ <;> simp [hA, h7, h5]
  · rw [if_neg hA]
    by_cases h7 : (0.7 : ℚ) < q
    · have h5 : (0.5 : ℚ) < q := by linarith
      rw [if_pos h7]
      refine ⟨?_, ?_, ?_⟩ <;> simp [hA, h7, h5]
    · rw [if_neg h7]
      by_cases h5 : (0.5 : ℚ) < q
      · rw [if_pos h5]
        refine ⟨?_, ?_, ?_⟩ <;> simp [hA, h7, h5]
      · rw [if_neg h5]
        refine ⟨?_, ?_, ?_⟩ <;> simp [hA, h7, h5]

/-- C8 (witness): the characterization applied at score one half with the
parsing method, giving confidence medium. -/
theorem C8_confidence_characterization_witness :
    determineConfidence (some (1 / 2 : ℚ)) "parsing" = "low" ↔
      (¬(("parsing" = "llm" ∧ (0.8 : ℚ) < 1 / 2) ∨ (0.7 : ℚ) < 1 / 2) ∧ ¬((0.5 : ℚ) < 1 / 2)) :=
  (C8_confidence_characterization (1 / 2) (by norm_num) (by norm_num) "parsing").2.2

/-! ## Polling lemmas for the Apify adapter -/

theorem pollAux_polls_le {α : Type} (status : ℕ → String) (dataset : List α) :
    ∀ (fuel i polls : ℕ) (sleeps : List ℕ),
      (pollAux status dataset fuel i polls sleeps).2.1 ≤ polls + fuel := by
  intro fuel
  induction fuel with
  | zero => intro i polls sleeps; simp [pollAux]
  | succ f ih =>
    intro i polls sleeps
    unfold pollAux
    dsimp only
    split_ifs with h1 h2
    · dsimp only; omega
    · dsimp only; omega
    · exact le_trans (ih (i + 1) (polls + 1) (sleeps ++ [3000])) (by omega)

theorem pollAux_step_nonterminal {α : Type} (status : ℕ → String) (dataset : List α)
    (f i polls : ℕ) (sleeps : List ℕ)
    (h1 : status i ≠ "SUCCEEDED") (h2 : status i ≠ "FAILED") :
    pollAux status dataset (f + 1) i polls sleeps =
      pollAux status dataset f (i + 1) (polls + 1) (sleeps ++ [3000]) := by
  conv_lhs => unfold pollAux
  dsimp only
  rw [if_neg h1, if_neg h2]

theorem pollAux_nonterminal_run {α : Type} (status : ℕ → String) (dataset : List α) :
    ∀ (k : ℕ), ∀ (fuel i polls : ℕ) (sleeps : List ℕ),
      k ≤ fuel →
      (∀ j, j < k → status (i + j) ≠ "SUCCEEDED" ∧ status (i + j) ≠ "FAILED") →
      pollAux status dataset fuel i polls sleeps =
        pollAux status dataset (fuel - k) (i + k) (polls + k) (sleeps ++ List.replicate k 3000) := by
  intro k
  induction k with
  | zero => intro fuel i polls sleeps _ _; simp
  | succ n ih =>
    intro fuel i polls sleeps hk h
    obtain ⟨f, rfl⟩ : ∃ f, fuel = f + 1 := ⟨fuel - 1, by omega⟩
    have h0 := h 0 (by omega)
    rw [Nat.add_zero] at h0
    rw [pollAux_step_nonterminal status dataset f i polls sleeps h0.1 h0.2]
    have e1 : f + 1 - (n + 1) = f - n := by omega
    have e2 : i + (n + 1) = i + 1 + n := by omega
    have e3 : polls + (n + 1) = polls + 1 + n := by omega
    have e4 : sleeps ++ List.replicate (n + 1) 3000 = (sleeps ++ [3000]) ++ List.replicate n 3000 := by
      rw [List.replicate_succ, List.append_cons]
    rw [e1, e2, e3, e4]
    exact ih f (i + 1) (polls + 1) (sleeps ++ [3000]) (by omega)
      (fun j hj => by
        have := h (j + 1) (by omega)
        rwa [show i + 1 + j = i + (j + 1) by omega])

theorem pollAux_succeeded_step {α : Type} (status : ℕ → String) (dataset : List α)
    (f i polls : ℕ) (sleeps : List ℕ) (hs : status i = "SUCCEEDED") :
    pollAux status dataset (f + 1) i polls sleeps =
      (Except.ok (match dataset.head? with
        | some a => ApData.record a
        | none => ApData.emptyObj), polls + 1, sleeps) := by
  unfold pollAux
  dsimp only
  rw [if_pos hs]

theorem pollAux_failed_step {α : Type} (status : ℕ → String) (dataset : List α)
    (f i polls : ℕ) (sleeps : List ℕ) (hs : status i = "FAILED")
    (hns : status i ≠ "SUCCEEDED") :
    pollAux status dataset (f + 1) i polls sleeps =
      (Except.error "Apify scraping failed", polls + 1, sleeps) := by
  unfold pollAux
  dsimp only
  rw [if_neg hns, if_pos hs]

/-! ## Claim C9 -/

/-- C9: the deep-adapter polling loop makes at most 20 status polls;
with no terminal status inside the bound it ends with the timeout error
after exactly 20 polls with a 3-second sleep after each; a first terminal
FAILED status at poll k ends with the job-failed error at poll k + 1; a
first terminal SUCCEEDED status at poll k fetches the dataset and returns
its first record (or the empty-object substitute) at poll k + 1. -/
theorem C9_poll_termination {α : Type} (status : ℕ → String) (dataset : List α) :
    ((pollForCompletion status dataset 20).2.1 ≤ 20)
    ∧ ((∀ j, j < 20 → status j ≠ "SUCCEEDED" ∧ status j ≠ "FAILED") →
        pollForCompletion status dataset 20 =
          (Except.error "Apify scraping timeout", 20, List.replicate 20 3000))
    ∧ (∀ k, k < 20 → status k = "FAILED" →
        (∀ j, j < k → status j ≠ "SUCCEEDED" ∧ status j ≠ "FAILED") →
        pollForCompletion status dataset 20 =
          (Except.error "Apify scraping failed", k + 1, List.replicate k 3000))
    ∧ (∀ k, k < 20 → status k = "SUCCEEDED" →
        (∀ j, j < k → status j ≠ "SUCCEEDED" ∧ status j ≠ "FAILED") →
        pollForCompletion status dataset 20 =
          (Except.ok (match dataset.head? with
            | some a => ApData.record a
            | none => ApData.emptyObj), k + 1, List.replicate k 3000)) := by
  refine ⟨?_, ?_, ?_, ?_⟩
  · exact le_trans (pollAux_polls_le status dataset 20 0 0 []) (by omega)
  · intro h
    unfold pollForCompletion
    rw [pollAux_nonterminal_run status dataset 20 20 0 0 [] (le_refl 20)
      (fun j hj => by simpa using h j hj)]
    simp [pollAux]
  · intro k hk hF hpre
    unfold pollForCompletion
    rw [pollAux_nonterminal_run status dataset k 20 0 0 [] (by omega)
      (fun j hj => by simpa using hpre j hj)]
    obtain ⟨f, hf⟩ : ∃ f, 20 - k = f + 1 := ⟨20 - k - 1, by omega⟩
    rw [hf, pollAux_failed_step status dataset f (0 + k) (0 + k) ([] ++ List.replicate k 3000)
      (by simpa using hF) (by rw [Nat.zero_add, hF]; decide)]
    simp
  · intro k hk hS hpre
    unfold pollForCompletion
    rw [pollAux_nonterminal_run status dataset k 20 0 0 [] (by omega)
      (fun j hj => by simpa using hpre j hj)]
    obtain ⟨f, hf⟩ : ∃ f, 20 - k = f + 1 := ⟨20 - k - 1, by omega⟩
    rw [hf, pollAux_succeeded_step status dataset f (0 + k) (0 + k) ([] ++ List.replicate k 3000)
      (by simpa using hS)]
    simp

/-- Demonstration status trace: running twice, then failed. -/
def pollStatusDemo : ℕ → String := fun i => if i = 2 then "FAILED" else "RUNNING"

/-- C9 (witness): the termination theorem applied to the demonstration
trace, ending with the job-failed error at the third poll. -/
theorem C9_poll_termination_witness :
    pollForCompletion pollStatusDemo ([] : List ℕ) 20 =
      (Except.error "Apify scraping failed", 2 + 1, List.replicate 2 3000) :=
  (C9_poll_termination pollStatusDemo []).2.2.1 2 (by omega) (by decide)
    (fun j hj => by
      have hj2 : j = 0 ∨ j = 1 := by omega
      rcases hj2 with rfl | rfl <;> exact ⟨by decide, by decide⟩)

/-! ## Claim C10 -/

/-- C10: when the job reaches SUCCEEDED but the result dataset is empty,
ApifyService.scrapeWebsite still returns success true with the
empty-object payload substituted for the missing first record, never a
failure. -/
theorem C10_empty_dataset_success {α : Type} (tok : String) (status : ℕ → String) (k : ℕ)
    (hk : k < 20) (hs : status k = "SUCCEEDED")
    (hpre : ∀ j, j < k → status j ≠ "SUCCEEDED" ∧ status j ≠ "FAILED") :
    (apifyScrapeWebsite (α := α) (some tok) true status []).success = true
    ∧ (apifyScrapeWebsite (α := α) (some tok) true status []).data = some ApData.emptyObj
    ∧ (apifyScrapeWebsite (α := α) (some tok) true status []).error = none := by
  have hp : (pollForCompletion status ([] : List α) 20).1 = Except.ok ApData.emptyObj := by
    unfold pollForCompletion
    rw [pollAux_nonterminal_run status [] k 20 0 0 [] (by omega)
      (fun j hj => by simpa using hpre j hj)]
    obtain ⟨f, hf⟩ : ∃ f, 20 - k = f + 1 := ⟨20 - k - 1, by omega⟩
    rw [hf, pollAux_succeeded_step status [] f (0 + k) (0 + k) ([] ++ List.replicate k 3000)
      (by simpa using hs)]
    rfl
  refine ⟨?_, ?_, ?_⟩ <;> simp [apifyScrapeWebsite, hp]

/-- C10 (witness): the theorem applied to an immediately successful job
with an empty dataset. -/
theorem C10_empty_dataset_success_witness :
    (apifyScrapeWebsite (α := ℕ) (some "token") true (fun _ => "SUCCEEDED") []).success = true
    ∧ (apifyScrapeWebsite (α := ℕ) (some "token") true (fun _ => "SUCCEEDED") []).data
        = some ApData.emptyObj
    ∧ (apifyScrapeWebsite (α := ℕ) (some "token") true (fun _ => "SUCCEEDED") []).error = none :=
  C10_empty_dataset_success "token" (fun _ => "SUCCEEDED") 0 (by omega) rfl
    (fun j hj => absurd hj (by omega))

/-! ## Claim C5 -/

/-- C5 (counterexample): when the primary back-end fails with one error
and the fallback fails with a different error, the returned failure
carries the primary error, not the last encountered (fallback) error. -/
theorem C5_keeps_primary_error :
    ((intelligentScrapeURL (α := Unit) Service.firecrawl
        { success := false, data := none, error := some "primary error" }
        { success := false, data := none, error := some "fallback error" }
        id (fun _ => 0) 5).1.success = false)
    ∧ ((intelligentScrapeURL (α := Unit) Service.firecrawl
        { success := false, data := none, error := some "primary error" }
        { success := false, data := none, error := some "fallback error" }
        id (fun _ => 0) 5).1.error = some "primary error")
    ∧ "primary error" ≠ "fallback error" := by
  refine ⟨rfl, rfl, by decide⟩

/-- C5 (amended): when the primary back-end fails, exactly one fallback
call is made against the other back-end; a successful fallback yields a
successful result whose method carries the -fallback suffix of the other
back-end; a failed fallback returns the primary failure unchanged (the
primary method tag and the primary error, not the fallback error). -/
theorem C5_fallback_behaviour (α : Type) (service : Service)
    (fc ap : BackendResp α) (rawOf : Option α → Option α) (calcQ : α → ℚ) (elapsed : ℕ)
    (hprim : (match service with | .firecrawl => fc.success | .apify => ap.success) = false) :
    ((intelligentScrapeURL service fc ap rawOf calcQ elapsed).2 = (1, 1))
    ∧ ((match service with | .firecrawl => ap.success | .apify => fc.success) = true →
        (intelligentScrapeURL service fc ap rawOf calcQ elapsed).1.success = true
        ∧ (intelligentScrapeURL service fc ap rawOf calcQ elapsed).1.method =
            (match service with
              | .firecrawl => "apify-fallback"
              | .apify => "firecrawl-fallback"))
    ∧ ((match service with | .firecrawl => ap.success | .apify => fc.success) = false →
        (intelligentScrapeURL service fc ap rawOf calcQ elapsed).1.success = false
        ∧ (intelligentScrapeURL service fc ap rawOf calcQ elapsed).1.error =
            (match service with | .firecrawl => fc.error | .apify => ap.error)
        ∧ (intelligentScrapeURL service fc ap rawOf calcQ elapsed).1.method =
            (match service with | .firecrawl => "firecrawl" | .apify => "apify")) := by
  cases service
  · dsimp only at hprim ⊢
    refine ⟨?_, fun hother => ?_, fun hother => ?_⟩
    · simp only [intelligentScrapeURL, hprim]
      cases hap : ap.success <;> simp [hap]
    · simp only [intelligentScrapeURL, hprim, hother]
      constructor <;> (split_ifs <;> simp_all)
    · simp only [intelligentScrapeURL, hprim, hother]
      refine ⟨?_, ?_, ?_⟩ <;> (split_ifs <;> simp_all)
  · dsimp only at hprim ⊢
    refine ⟨?_, fun hother => ?_, fun hother => ?_⟩
    · simp only [intelligentScrapeURL, hprim]
      cases hfc : fc.success <;> simp [hfc]
    · simp only [intelligentScrapeURL, hprim, hother]
      constructor <;> (split_ifs <;> simp_all)
    · simp only [intelligentScrapeURL, hprim, hother]
      refine ⟨?_, ?_, ?_⟩ <;> (split_ifs <;> simp_all)

/-- C5 (witness): the amended theorem applied to a firecrawl primary that
fails against an apify fallback that also fails. -/
theorem C5_fallback_behaviour_witness :
    ((intelligentScrapeURL (α := Unit) Service.firecrawl
        { success := false, data := none, error := some "e1" }
        { success := false, data := none, error := some "e2" }
        id (fun _ => 0) 9).2 = (1, 1))
    ∧ ((match Service.firecrawl with
          | .firecrawl => ({ success := false, data := none, error := some "e2" } : BackendResp Unit).success
          | .apify => ({ success := false, data := none, error := some "e1" } : BackendResp Unit).success) = true →
        (intelligentScrapeURL (α := Unit) Service.firecrawl
          { success := false, data := none, error := some "e1" }
          { success := false, data := none, error := some "e2" }
          id (fun _ => 0) 9).1.success = true
        ∧ (intelligentScrapeURL (α := Unit) Service.firecrawl
            { success := false, data := none, error := some "e1" }
            { success := false, data := none, error := some "e2" }
            id (fun _ => 0) 9).1.method =
            (match Service.firecrawl with
              | .firecrawl => "apify-fallback"
              | .apify => "firecrawl-fallback"))
    ∧ ((match Service.firecrawl with
          | .firecrawl => ({ success := false, data := none, error := some "e2" } : BackendResp Unit).success
          | .apify => ({ success := false, data := none, error := some "e1" } : BackendResp Unit).success) = false →
        (intelligentScrapeURL (α := Unit) Service.firecrawl
          { success := false, data := none, error := some "e1" }
          { success := false, data := none, error := some "e2" }
          id (fun _ => 0) 9).1.success = false
        ∧ (intelligentScrapeURL (α := Unit) Service.firecrawl
            { success := false, data := none, error := some "e1" }
            { success := false, data := none, error := some "e2" }
            id (fun _ => 0) 9).1.error =
            (match Service.firecrawl with
              | .firecrawl => ({ success := false, data := none, error := some "e1" } : BackendResp Unit).error
              | .apify => ({ success := false, data := none, error := some "e2" } : BackendResp Unit).error)
        ∧ (intelligentScrapeURL (α := Unit) Service.firecrawl
            { success := false, data := none, error := some "e1" }
            { success := false, data := none, error := some "e2" }
            id (fun _ => 0) 9).1.method =
            (match Service.firecrawl with | .firecrawl => "firecrawl" | .apify => "apify")) :=
  C5_fallback_behaviour Unit Service.firecrawl
    { success := false, data := none, error := some "e1" }
    { success := false, data := none, error := some "e2" }
    id (fun _ => 0) 9 rfl

/-! ## Claims C1 and C6: the scrapeWebsite pipeline -/

theorem retryLoop_first_ok (behaviour : ℕ → Except String FirecrawlResponse) (mr : ℕ)
    (hmr : 1 ≤ mr) (resp : FirecrawlResponse) (hb : behaviour 1 = .ok resp) :
    retryLoop behaviour mr = ⟨some resp, none, [], 1⟩ := by
  obtain ⟨m, rfl⟩ : ∃ m, mr = m + 1 := ⟨mr - 1, by omega⟩
  unfold retryLoop
  conv_lhs => unfold retryAux
  dsimp only
  rw [show m + 1 - m = 1 by omega, hb]

/-- C6: when the back-end reports success but the page carries neither
markdown nor html, scrapeWebsite still returns success true, substituting
the content-empty placeholder page whose markdown reads No content
extracted, and the analyzed payload is computed from that placeholder. -/
theorem C6_empty_content_placeholder (mdBody : String → ExtractedMarketingData)
    (ph : String → PartialEMD) (cfg : ScrapingConfig) (st : CacheState) (env : ScrapeEnv)
    (url : String) (resp : FirecrawlResponse)
    (hmr : 1 ≤ cfg.maxRetries)
    (hvalid : env.validateIsValid = true)
    (hkey : env.apiKey.isSome = true)
    (hmiss : getCachedResult cfg st env.now url = none)
    (hb : env.behaviour 1 = .ok resp)
    (hs : resp.success = true)
    (hmd : resp.markdown.getD "" = "")
    (hht : resp.html.getD "" = "") :
    ((scrapeWebsite mdBody ph cfg st env url true).1.success = true)
    ∧ ((scrapeWebsite mdBody ph cfg st env url true).1.data = some
        { raw := fallbackPage url
        , analyzed := analyzeScrapedContent mdBody ph (fallbackPage url) false
        , metadata :=
            { processingTime := env.elapsedMs, finalURL := url, isAffiliatePage := false
            , extractionMethod :=
                (analyzeScrapedContent mdBody ph (fallbackPage url) false).extractionMethod } })
    ∧ ((fallbackPage url).markdown = some "No content extracted") := by
  obtain ⟨k, hk⟩ := Option.isSome_iff_exists.mp hkey
  have hloop := retryLoop_first_ok env.behaviour cfg.maxRetries hmr resp hb
  refine ⟨?_, ?_, rfl⟩ <;>
    simp [scrapeWebsite, scrapeWebsiteBody, hmiss, hvalid, hk, hloop, hs, hmd, hht]

/-- Back-end response reporting success with no content at all. -/
def emptyResp : FirecrawlResponse :=
  { success := true, error := none, markdown := none, html := none, metadata := none }

/-- Call environment whose back-end always returns the empty success. -/
def emptyContentEnv : ScrapeEnv :=
  { validateIsValid := true, apiKey := some "key", behaviour := fun _ => Except.ok emptyResp
  , now := 50, elapsedMs := 4 }

/-- C6 (witness): the placeholder theorem applied to a back-end returning
an empty success on the first attempt. -/
theorem C6_empty_content_placeholder_witness :
    ((scrapeWebsite (fun _ => getEmptyExtractedData) (fun _ => PartialEMD.allNone)
        defaultConfig ⟨[], []⟩ emptyContentEnv "https://ex.com" true).1.success = true)
    ∧ ((scrapeWebsite (fun _ => getEmptyExtractedData) (fun _ => PartialEMD.allNone)
        defaultConfig ⟨[], []⟩ emptyContentEnv "https://ex.com" true).1.data = some
        { raw := fallbackPage "https://ex.com"
        , analyzed := analyzeScrapedContent (fun _ => getEmptyExtractedData)
            (fun _ => PartialEMD.allNone) (fallbackPage "https://ex.com") false
        , metadata :=
            { processingTime := emptyContentEnv.elapsedMs, finalURL := "https://ex.com"
            , isAffiliatePage := false
            , extractionMethod :=
                (analyzeScrapedContent (fun _ => getEmptyExtractedData)
                  (fun _ => PartialEMD.allNone) (fallbackPage "https://ex.com")
                  false).extractionMethod } })
    ∧ ((fallbackPage "https://ex.com").markdown = some "No content extracted") :=
  C6_empty_content_placeholder (fun _ => getEmptyExtractedData) (fun _ => PartialEMD.allNone)
    defaultConfig ⟨[], []⟩ emptyContentEnv "https://ex.com" emptyResp
    (by decide) rfl rfl rfl rfl rfl rfl rfl

/-- Back-end behaviour that throws on the first attempt and succeeds with
a content-bearing page from the second attempt on. -/
def retryBugBehaviour : ℕ → Except String FirecrawlResponse := fun n =>
  if n = 1 then Except.error "network error"
  else Except.ok
    { success := true, error := none, markdown := some "# Product page"
    , html := none, metadata := none }

/-- Call environment with a valid URL, a stored key and the behaviour
failing exactly once. -/
def retryBugEnv : ScrapeEnv :=
  { validateIsValid := true, apiKey := some "key", behaviour := retryBugBehaviour
  , now := 1000, elapsedMs := 5 }

/-- C1: evaluation at the failing input. With the default configuration
(maxRetries three) and a back-end that fails on attempt one and succeeds
on attempt two, the retry loop does break out on the first success after
the one-second backoff (two attempts made, a successful response held),
yet scrapeWebsite returns a failed ScrapingResult carrying the attempt-one
error, because the code rethrows the stale lastError after the loop. -/
theorem C1_retry_success_discarded :
    (retryBugBehaviour 1 = Except.error "network error")
    ∧ (∃ r, retryBugBehaviour 2 = Except.ok r ∧ r.success = true
        ∧ (2 : ℕ) ≤ defaultConfig.maxRetries)
    ∧ ((retryLoop retryBugBehaviour defaultConfig.maxRetries).attemptsMade = 2)
    ∧ ((retryLoop retryBugBehaviour defaultConfig.maxRetries).response.map
        FirecrawlResponse.success = some true)
    ∧ ((retryLoop retryBugBehaviour defaultConfig.maxRetries).delaysMs = [1000])
    ∧ ((scrapeWebsite (fun _ => getEmptyExtractedData) (fun _ => PartialEMD.allNone)
          defaultConfig ⟨[], []⟩ retryBugEnv "https://example.com" true).1.success = false)
    ∧ ((scrapeWebsite (fun _ => getEmptyExtractedData) (fun _ => PartialEMD.allNone)
          defaultConfig ⟨[], []⟩ retryBugEnv "https://example.com" true).1.error
        = some "network error") :=
  ⟨rfl, ⟨_, rfl, rfl, by decide⟩, by decide, by decide, by decide, by decide, by decide⟩

/-! ## Map lemmas for the result cache -/

theorem find?_key_map_replace {α : Type} (k : String) (v : α) (m : SMap α)
    (h : m.any (fun p => p.1 == k) = true) :
    (m.map (fun p => cond (p.1 == k) (k, v) p)).find? (fun p => p.1 == k)
      = some (k, v) := by
  induction m with
  | nil => simp at h
  | cons p rest ih =>
    rcases hp : (p.1 == k) with _ | _
    · have hr : rest.any (fun p => p.1 == k) = true := by
        simp only [List.any_cons, hp, Bool.false_or] at h
        exact h
      simp only [List.map_cons, hp, cond_false, List.find?_cons, ih hr]
    · simp only [List.map_cons, hp, cond_true, List.find?_cons, beq_self_eq_true]

theorem find?_key_append_fresh {α : Type} (k : String) (v : α) (m : SMap α)
    (h : m.any (fun p => p.1 == k) = false) :
    (m ++ [(k, v)]).find? (fun p => p.1 == k) = some (k, v) := by
  induction m with
  | nil => simp
  | cons p rest ih =>
    simp only [List.any_cons, Bool.or_eq_false_iff] at h
    simp only [List.cons_append, List.find?_cons, h.1, ih h.2]

theorem mapGet_mapSet_self {α : Type} (m : SMap α) (k : String) (v : α) :
    mapGet (mapSet m k v) k = some v := by
  unfold mapGet mapSet
  split_ifs with h
  · rw [find?_key_map_replace k v m h]
    rfl
  · rw [find?_key_append_fresh k v m (Bool.eq_false_iff.mpr h)]
    rfl

theorem mapGet_mapDeleteKey_ne {α : Type} (m : SMap α) (k k0 : String) (h : k ≠ k0) :
    mapGet (mapDeleteKey m k0) k = mapGet m k := by
  unfold mapGet mapDeleteKey
  induction m with
  | nil => rfl
  | cons p rest ih =>
    rcases hp0 : (p.1 == k0) with _ | _
    · rw [List.filter_cons_of_pos (by simp [hp0])]
      rcases hpk : (p.1 == k) with _ | _
      · simp only [List.find?_cons, hpk, ih]
      · simp only [List.find?_cons, hpk]
    · have hpk : (p.1 == k) = false := by
        have he : p.1 = k0 := by simpa using hp0
        rw [he]
        simp
        exact fun hkk => h hkk.symm
      rw [List.filter_cons_of_neg (by simp [hp0])]
      simp only [List.find?_cons, hpk, ih]

theorem mapSet_length {α : Type} (m : SMap α) (k : String) (v : α) :
    (mapSet m k v).length
      = if m.any (fun p => p.1 == k) = true then m.length else m.length + 1 := by
  unfold mapSet
  split_ifs with h <;> simp

theorem mapSet_fresh_eq {α : Type} (m : SMap α) (k : String) (v : α)
    (h : m.any (fun p => p.1 == k) = false) :
    mapSet m k v = m ++ [(k, v)] := by
  unfold mapSet
  rw [if_neg (by simp [h])]

theorem mapSet_keys_existing {α : Type} (m : SMap α) (k : String) (v : α)
    (h : m.any (fun p => p.1 == k) = true) :
    (mapSet m k v).map Prod.fst = m.map Prod.fst := by
  unfold mapSet
  rw [if_pos h, List.map_map]
  apply List.map_congr_left
  intro p _
  rcases hpk : (p.1 == k) with _ | _
  · simp [Function.comp, hpk]
  · have he : p.1 = k := by simpa using hpk
    simp [Function.comp, hpk, he]

theorem mapSet_keys_nodup {α : Type} (m : SMap α) (k : String) (v : α)
    (h : (m.map Prod.fst).Nodup) : ((mapSet m k v).map Prod.fst).Nodup := by
  by_cases hany : m.any (fun p => p.1 == k) = true
  · rw [mapSet_keys_existing m k v hany]
    exact h
  · rw [mapSet_fresh_eq m k v (Bool.eq_false_iff.mpr hany)]
    rw [List.map_append]
    have hk : k ∉ m.map Prod.fst := by
      intro hmem
      obtain ⟨p, hp, he⟩ := List.mem_map.mp hmem
      exact hany (List.any_eq_true.mpr ⟨p, hp, by simp [he]⟩)
    rw [List.nodup_append]
    refine ⟨h, List.nodup_singleton _, ?_⟩
    intro a ha hb
    simp only [List.map_cons, List.map_nil, List.mem_singleton] at hb
    exact hk (hb ▸ ha)

/-! ## setCachedResult lemmas -/

theorem mapDeleteKey_cons_self {α : Type} (p0 : String × α) (rest : SMap α) :
    mapDeleteKey (p0 :: rest) p0.1 = mapDeleteKey rest p0.1 := by
  unfold mapDeleteKey
  rw [List.filter_cons_of_neg (by simp)]

theorem mapDeleteKey_length_le {α : Type} (m : SMap α) (k : String) :
    (mapDeleteKey m k).length ≤ m.length :=
  List.length_filter_le _ _

theorem setCachedResult_length_le (cfg : ScrapingConfig) (st : CacheState) (now : ℕ)
    (url : String) (r : ScrapingResult) (hlen : st.cache.length ≤ 100) :
    (setCachedResult cfg st now url r).cache.length ≤ 100 := by
  unfold setCachedResult
  split_ifs with hg
  · exact hlen
  · dsimp only
    have hclen : (mapSet st.cache (getCacheKey url) r).length ≤ 101 := by
      rw [mapSet_length]
      split_ifs <;> omega
    split_ifs with hbig
    · rcases hc : mapSet st.cache (getCacheKey url) r with _ | ⟨p0, rest⟩
      · exact absurd hbig (by rw [hc]; simp)
      · have hclen2 : (p0 :: rest).length ≤ 101 := hc ▸ hclen
        dsimp only [List.head?]
        rw [mapDeleteKey_cons_self]
        calc (mapDeleteKey rest p0.1).length
            ≤ rest.length := mapDeleteKey_length_le _ _
          _ ≤ 100 := by
              simp only [List.length_cons] at hclen2
              omega
    · dsimp only
      omega

theorem setCachedResult_keys_nodup (cfg : ScrapingConfig) (st : CacheState) (now : ℕ)
    (url : String) (r : ScrapingResult) (hnodup : (st.cache.map Prod.fst).Nodup) :
    ((setCachedResult cfg st now url r).cache.map Prod.fst).Nodup := by
  unfold setCachedResult
  split_ifs with hg
  · exact hnodup
  · dsimp only
    have hcn := mapSet_keys_nodup st.cache (getCacheKey url) r hnodup
    split_ifs with hbig
    · rcases hc : mapSet st.cache (getCacheKey url) r with _ | ⟨p0, rest⟩
      · exact absurd hbig (by rw [hc]; simp)
      · have hcn2 : ((p0 :: rest).map Prod.fst).Nodup := hc ▸ hcn
        dsimp only [List.head?]
        exact List.Nodup.sublist ((List.filter_sublist _).map Prod.fst) hcn2
    · exact hcn

theorem setCachedResult_eviction (cfg : ScrapingConfig) (st : CacheState) (now : ℕ)
    (url : String) (r : ScrapingResult)
    (hc : cfg.enableCache = true) (hr : r.success = true)
    (hnodup : (st.cache.map Prod.fst).Nodup)
    (hfull : st.cache.length = 100)
    (hfresh : ∀ p ∈ st.cache, p.1 ≠ getCacheKey url) :
    (setCachedResult cfg st now url r).cache
      = st.cache.tail ++ [(getCacheKey url, r)] := by
  unfold setCachedResult
  rw [if_neg (by simp [hc, hr])]
  dsimp only
  have hany : st.cache.any (fun p => p.1 == getCacheKey url) = false := by
    rw [List.any_eq_false]
    intro p hp hb
    exact hfresh p hp (beq_iff_eq.mp hb)
  rw [mapSet_fresh_eq _ _ _ hany]
  obtain ⟨p0, rest, hst⟩ : ∃ p0 rest, st.cache = p0 :: rest := by
    rcases hcc : st.cache with _ | ⟨a, b⟩
    · exact absurd hfull (by rw [hcc]; simp)
    · exact ⟨a, b, rfl⟩
  rw [hst]
  rw [if_pos (by
    rw [hst] at hfull
    simp only [List.cons_append, List.length_cons, List.length_append,
      List.length_singleton] at hfull ⊢
    omega)]
  dsimp only [List.cons_append, List.head?]
  rw [mapDeleteKey_cons_self]
  unfold mapDeleteKey
  have h1 : rest.filter (fun p => !(p.1 == p0.1)) = rest := by
    rw [List.filter_eq_self]
    intro p hp
    have hnp : p.1 ≠ p0.1 := by
      have hnodup2 : ((p0 :: rest).map Prod.fst).Nodup := hst ▸ hnodup
      simp only [List.map_cons, List.nodup_cons] at hnodup2
      intro he
      exact hnodup2.1 (he ▸ List.mem_map_of_mem Prod.fst hp)
    simp [hnp]
  have h2 : [(getCacheKey url, r)].filter (fun p => !(p.1 == p0.1))
      = [(getCacheKey url, r)] := by
    rw [List.filter_eq_self]
    intro p hp
    simp only [List.mem_singleton] at hp
    subst hp
    have hnp : getCacheKey url ≠ p0.1 :=
      fun he => (hfresh p0 (hst ▸ List.mem_cons_self p0 rest)) he.symm
    simp [hnp]
  rw [List.filter_append, h1, h2]
  rfl

theorem setCachedResult_get (cfg : ScrapingConfig) (st : CacheState) (now : ℕ)
    (url : String) (r : ScrapingResult)
    (hc : cfg.enableCache = true) (hr : r.success = true)
    (hlen : st.cache.length ≤ 100) :
    mapGet (setCachedResult cfg st now url r).cache (getCacheKey url) = some r
    ∧ mapGet (setCachedResult cfg st now url r).cacheTimestamps (getCacheKey url)
        = some now := by
  unfold setCachedResult
  rw [if_neg (by simp [hc, hr])]
  dsimp only
  split_ifs with hbig
  · have hany : st.cache.any (fun p => p.1 == getCacheKey url) = false := by
      rcases hb : st.cache.any (fun p => p.1 == getCacheKey url) with _ | _
      · rfl
      · have hml := mapSet_length st.cache (getCacheKey url) r
        rw [if_pos hb] at hml
        omega
    rw [mapSet_fresh_eq _ _ _ hany] at hbig ⊢
    obtain ⟨p0, rest, hst⟩ : ∃ p0 rest, st.cache = p0 :: rest := by
      rcases hcc : st.cache with _ | ⟨a, b⟩
      · exact absurd hbig (by rw [hcc]; simp)
      · exact ⟨a, b, rfl⟩
    rw [hst]
    dsimp only [List.cons_append, List.head?]
    have hne : getCacheKey url ≠ p0.1 := by
      have hh := List.any_eq_false.mp hany p0 (hst ▸ List.mem_cons_self p0 rest)
      intro he
      exact hh (beq_iff_eq.mpr he.symm)
    constructor
    · rw [mapGet_mapDeleteKey_ne _ _ _ hne]
      have hg := mapGet_mapSet_self st.cache (getCacheKey url) r
      rw [mapSet_fresh_eq _ _ _ hany, hst] at hg
      simpa using hg
    · rw [mapGet_mapDeleteKey_ne _ _ _ hne]
      exact mapGet_mapSet_self _ _ _
  · exact ⟨mapGet_mapSet_self _ _ _, mapGet_mapSet_self _ _ _⟩

theorem insertAll_cons (cfg : ScrapingConfig) (now : ℕ) (x : String × ScrapingResult)
    (xs : List (String × ScrapingResult)) (st : CacheState) :
    insertAll cfg now (x :: xs) st
      = insertAll cfg now xs (setCachedResult cfg st now x.1 x.2) := rfl

theorem insertAll_length_le (cfg : ScrapingConfig) (now : ℕ) :
    ∀ (xs : List (String × ScrapingResult)) (st : CacheState),
      st.cache.length ≤ 100 → (insertAll cfg now xs st).cache.length ≤ 100
  | [], _, h => h
  | x :: xs, st, h => by
    rw [insertAll_cons]
    exact insertAll_length_le cfg now xs _
      (setCachedResult_length_le cfg st now x.1 x.2 h)

/-! ## Claim C3 -/

/-- Successful result value used for cache insertions. -/
def dummyOk : ScrapingResult := { success := true, error := none, data := none }

/-- C3 (amended): over states whose key list is duplicate-free and whose
size is within the bound (every state reachable from the empty cache), an
insertion keeps the entry count at most 100 and keeps keys duplicate-free;
every insertion sequence from the empty cache stays within 100 entries;
and inserting a result under a fresh cache key into a full 100-entry cache
evicts exactly the earliest-inserted entry, appending the new entry and
leaving all others unchanged in order. -/
theorem C3_bound_and_eviction (cfg : ScrapingConfig) (st : CacheState) (now : ℕ)
    (url : String) (r : ScrapingResult)
    (hlen : st.cache.length ≤ 100)
    (hnodup : (st.cache.map Prod.fst).Nodup) :
    ((setCachedResult cfg st now url r).cache.length ≤ 100)
    ∧ (((setCachedResult cfg st now url r).cache.map Prod.fst).Nodup)
    ∧ (∀ xs : List (String × ScrapingResult),
        (insertAll cfg now xs ⟨[], []⟩).cache.length ≤ 100)
    ∧ (cfg.enableCache = true → r.success = true → st.cache.length = 100 →
        (∀ p ∈ st.cache, p.1 ≠ getCacheKey url) →
        (setCachedResult cfg st now url r).cache
          = st.cache.tail ++ [(getCacheKey url, r)]) :=
  ⟨setCachedResult_length_le cfg st now url r hlen,
   setCachedResult_keys_nodup cfg st now url r hnodup,
   fun xs => insertAll_length_le cfg now xs ⟨[], []⟩ (by simp),
   fun hc hr hfull hfresh =>
     setCachedResult_eviction cfg st now url r hc hr hnodup hfull hfresh⟩

/-- Hundred-entry cache state with distinct keys, for the witness. -/
def fullCacheState : CacheState :=
  ⟨(List.range 100).map (fun i => ("k" ++ Nat.repr i, dummyOk)), []⟩

/-- C3 (witness): the amended theorem applied to the full hundred-entry
state and a fresh URL; the eviction arm is exercised below at the same
state by the dischargeable hypotheses. -/
theorem C3_bound_and_eviction_witness :
    ((setCachedResult defaultConfig fullCacheState 7 "fresh" dummyOk).cache.length ≤ 100)
    ∧ (((setCachedResult defaultConfig fullCacheState 7 "fresh" dummyOk).cache.map Prod.fst).Nodup)
    ∧ (∀ xs : List (String × ScrapingResult),
        (insertAll defaultConfig 7 xs ⟨[], []⟩).cache.length ≤ 100)
    ∧ (defaultConfig.enableCache = true → dummyOk.success = true →
        fullCacheState.cache.length = 100 →
        (∀ p ∈ fullCacheState.cache, p.1 ≠ getCacheKey "fresh") →
        (setCachedResult defaultConfig fullCacheState 7 "fresh" dummyOk).cache
          = fullCacheState.cache.tail ++ [(getCacheKey "fresh", dummyOk)]) :=
  C3_bound_and_eviction defaultConfig fullCacheState 7 "fresh" dummyOk
    (by decide) (by decide)

/-- Hundred lowercase URLs followed by one distinct uppercase URL whose
cache key collides with the first. -/
def collideUrls : List String :=
  (List.range 100).map (fun i => "u" ++ Nat.repr i) ++ ["U0"]

set_option maxRecDepth 100000 in
/-- C3 (counterexample): the claim speaks of distinct URLs, but cache keys
are lowercased trimmed URLs, so the 101 pairwise-distinct URLs below
produce only 100 distinct keys: after inserting all of them the cache
still holds the very same 100 keys as after the first 100 insertions, the
earliest-inserted entry (key u0) is still present, and nothing was
evicted, contradicting the claim that inserting the 101st distinct URL
evicts the earliest-inserted entry. -/
theorem C3_distinct_urls_no_eviction :
    collideUrls.length = 101
    ∧ collideUrls.Nodup
    ∧ ((insertAll defaultConfig 7 (collideUrls.map (fun u => (u, dummyOk))) ⟨[], []⟩).cache.map
        Prod.fst
      = (insertAll defaultConfig 7 ((collideUrls.take 100).map (fun u => (u, dummyOk)))
          ⟨[], []⟩).cache.map Prod.fst)
    ∧ ((insertAll defaultConfig 7 (collideUrls.map (fun u => (u, dummyOk))) ⟨[], []⟩).cache.length
        = 100)
    ∧ ((mapGet (insertAll defaultConfig 7 (collideUrls.map (fun u => (u, dummyOk)))
        ⟨[], []⟩).cache "u0").isSome = true) := by
  refine ⟨by decide, by decide, by decide, by decide, by decide⟩

/-! ## Claim C4 -/

/-- C4: with caching enabled, after storing a successful result at clock
t0 a read of the same URL (up to lowercasing and trimming) at clock t
returns that result while strictly less than thirty minutes have elapsed,
and returns absent once thirty minutes or more have elapsed; expiry is
decided lazily at read time. -/
theorem C4_cache_roundtrip (cfg : ScrapingConfig) (st : CacheState) (url url2 : String)
    (r : ScrapingResult) (t0 t : ℕ)
    (hc : cfg.enableCache = true) (hr : r.success = true)
    (hk : getCacheKey url2 = getCacheKey url)
    (ht0 : 0 < t0) (hlen : st.cache.length ≤ 100) :
    ((t - t0 < CACHE_TTL) →
        getCachedResult cfg (setCachedResult cfg st t0 url r) t url2 = some r)
    ∧ ((CACHE_TTL ≤ t - t0) →
        getCachedResult cfg (setCachedResult cfg st t0 url r) t url2 = none) := by
  obtain ⟨hg1, hg2⟩ := setCachedResult_get cfg st t0 url r hc hr hlen
  have ht0ne : t0 ≠ 0 := by omega
  constructor
  · intro hlt
    unfold getCachedResult isCacheValid
    rw [hk]
    dsimp only
    rw [hg2]
    simp [hc, ht0ne, hlt, hg1]
  · intro hge
    unfold getCachedResult isCacheValid
    rw [hk]
    dsimp only
    rw [hg2]
    simp [hc, ht0ne, not_lt.mpr hge]

/-- C4 (witness): the round-trip theorem applied to the empty cache, the
URL pair A and a-with-trailing-space sharing the key a, insertion at
millisecond 1 and reads at milliseconds 2 and TTL plus 1. -/
theorem C4_cache_roundtrip_witness :
    (((2 : ℕ) - 1 < CACHE_TTL) →
        getCachedResult defaultConfig
          (setCachedResult defaultConfig ⟨[], []⟩ 1 "A" dummyOk) 2 "a " = some dummyOk)
    ∧ ((CACHE_TTL ≤ (2 : ℕ) - 1) →
        getCachedResult defaultConfig
          (setCachedResult defaultConfig ⟨[], []⟩ 1 "A" dummyOk) 2 "a " = none) :=
  C4_cache_roundtrip defaultConfig ⟨[], []⟩ "A" "a " dummyOk 1 2
    (by decide) (by decide) (by decide) (by decide) (by decide)

end LGenie
